import Mathlib

/-!
Shallow embedding of the daemonize crate (src/lib.rs of knsd/daemonize).

Paths and user/group names are byte lists (Rust `PathBuf` / `String` bytes).
Machine integers returned by syscalls are `Int` (`c_int` / `pid_t` / `isize`);
uids and gids are `Nat` (`u32` values, with overflow written explicitly).
Every syscall's outcome is supplied by an oracle environment `Env`, and each
operation returns its result together with the list of side-effecting calls it
performed, in order, so that sequencing claims are provable as trace facts.
-/

namespace Daemonize2Proof

/-- Error type of `Daemonize::start`, mirroring `DaemonizeError` in src/lib.rs
(the hidden `__Nonexhaustive` marker variant, unreachable in the library, is
omitted). Variants carry the captured OS error code exactly where the Rust
enum does. -/
inductive DaemonizeError where
  | Fork
  | DetachSession (errno : Int)
  | GroupNotFound
  | GroupContainsNul
  | SetGroup (errno : Int)
  | UserNotFound
  | UserContainsNul
  | SetUser (errno : Int)
  | ChangeDirectory
  | PathContainsNul
  | OpenPidfile
  | LockPidfile (errno : Int)
  | ChownPidfile (errno : Int)
  | RedirectStreams (errno : Int)
  | WritePid
  | Chroot (errno : Int)
deriving DecidableEq, Repr

/-- Which OS error code, if any, a `DaemonizeError` value carries, read off the
payloads of the enum in src/lib.rs. -/
def errnoOf : DaemonizeError → Option Int
  | DaemonizeError.Fork => none
  | DaemonizeError.DetachSession n => some n
  | DaemonizeError.GroupNotFound => none
  | DaemonizeError.GroupContainsNul => none
  | DaemonizeError.SetGroup n => some n
  | DaemonizeError.UserNotFound => none
  | DaemonizeError.UserContainsNul => none
  | DaemonizeError.SetUser n => some n
  | DaemonizeError.ChangeDirectory => none
  | DaemonizeError.PathContainsNul => none
  | DaemonizeError.OpenPidfile => none
  | DaemonizeError.LockPidfile n => some n
  | DaemonizeError.ChownPidfile n => some n
  | DaemonizeError.RedirectStreams n => some n
  | DaemonizeError.WritePid => none
  | DaemonizeError.Chroot n => some n

/-- Per-variant description phrase, mirroring `DaemonizeError::__description`
in src/lib.rs. -/
def descriptionOf : DaemonizeError → String
  | DaemonizeError.Fork => "unable to fork"
  | DaemonizeError.DetachSession _ => "unable to create new session"
  | DaemonizeError.GroupNotFound => "unable to resolve group name to group id"
  | DaemonizeError.GroupContainsNul => "group option contains NUL"
  | DaemonizeError.SetGroup _ => "unable to set group"
  | DaemonizeError.UserNotFound => "unable to resolve user name to user id"
  | DaemonizeError.UserContainsNul => "user option contains NUL"
  | DaemonizeError.SetUser _ => "unable to set user"
  | DaemonizeError.ChangeDirectory => "unable to change directory"
  | DaemonizeError.PathContainsNul => "pid_file option contains NUL"
  | DaemonizeError.OpenPidfile => "unable to open pid file"
  | DaemonizeError.LockPidfile _ => "unable to lock pid file"
  | DaemonizeError.ChownPidfile _ => "unable to chown pid file"
  | DaemonizeError.RedirectStreams _ => "unable to redirect standard streams to /dev/null"
  | DaemonizeError.WritePid => "unable to write self pid to pid file"
  | DaemonizeError.Chroot _ => "unable to chroot into directory"

/-- Display of `DaemonizeError`, mirroring `impl Display for DaemonizeError` in
src/lib.rs, which formats `self.__description()` and nothing else. -/
def displayDaemonizeError (e : DaemonizeError) : String :=
  descriptionOf e

/-- User option of the builder: a name (byte string) or a numeric uid,
mirroring `enum User` in src/lib.rs. -/
inductive User where
  | Name (name : List Nat)
  | Id (uid : Nat)
deriving DecidableEq, Repr

/-- Group option of the builder, mirroring `enum Group` in src/lib.rs. -/
inductive Group where
  | Name (name : List Nat)
  | Id (gid : Nat)
deriving DecidableEq, Repr

/-- Standard-stream configuration, mirroring `enum StdioImp` in src/lib.rs; a
`File` is represented by its raw file descriptor. -/
inductive StdioImp where
  | Devnull
  | RedirectToFile (fd : Int)
deriving DecidableEq, Repr

/-- Builder state, mirroring `struct Daemonize<T>` in src/lib.rs. The one-shot
privileged action is represented by the value it returns; the exit action has
no data (it only shows up as a trace event). -/
structure Daemonize (T : Type) where
  directory : List Nat
  pid_file : Option (List Nat)
  chown_pid_file : Bool
  user : Option User
  group : Option Group
  umask : Nat
  root : Option (List Nat)
  privileged_action : T
  stdin : StdioImp
  stdout : StdioImp
  stderr : StdioImp

/-- Side-effecting calls performed by the library, recorded in order. A
`forkEv b` records a `fork()` call made by `perform_fork` invoked with
(`b` = true) or without an exit action, matching the two call sites in
`start`. -/
inductive Event where
  | openPidfileEv (path : List Nat) (flags : Nat) (mode : Nat)
  | flockEv (fd : Int) (op : Nat)
  | forkEv (hasExitAction : Bool)
  | exitActionEv
  | exitProcessEv (code : Int)
  | chdirEv (path : List Nat)
  | setsidEv
  | umaskEv (mask : Nat)
  | openDevnullEv
  | closeEv (fd : Int)
  | dup2Ev (oldfd : Int) (newfd : Int)
  | lookupUserEv (name : List Nat)
  | lookupGroupEv (name : List Nat)
  | chownEv (path : List Nat) (uid : Nat) (gid : Nat)
  | privilegedActionEv
  | chrootEv (path : List Nat)
  | setgidEv (gid : Nat)
  | setuidEv (uid : Nat)
  | ftruncateEv (fd : Int) (len : Int)
  | writeEv (fd : Int) (buf : List Nat) (len : Nat)
deriving DecidableEq, Repr

/-- Oracle environment: the outcome each syscall would produce, together with
the errno value `errno()` would read right after a failing call. `closeRet`,
`dup2Ret` and the name-service lookups are functions of the call's
arguments. -/
structure Env where
  openPidRet : Int
  flockRet : Int
  flockErrno : Int
  fork1Ret : Int
  chdirOk : Bool
  setsidRet : Int
  setsidErrno : Int
  fork2Ret : Int
  openDevnullRet : Int
  openDevnullErrno : Int
  closeRet : Int → Int
  closeErrno : Int → Int
  dup2Ret : Int → Int → Int
  dup2Errno : Int → Int → Int
  lookupUser : List Nat → Option Nat
  lookupGroup : List Nat → Option Nat
  chownRet : Int
  chownErrno : Int
  chrootRet : Int
  chrootErrno : Int
  setgidRet : Int
  setgidErrno : Int
  setuidRet : Int
  setuidErrno : Int
  getpidVal : Nat
  ftruncateRet : Int
  writeRet : Int

/-- Outcome of `start`: normal return, error return, or process termination
via `exit` in a parent branch of a fork (which in the real program never
returns to the caller). -/
inductive Outcome (T : Type) where
  | ok (value : T)
  | err (error : DaemonizeError)
  | exited (code : Int)
deriving DecidableEq, Repr

/-- Result of `perform_fork` in src/lib.rs: `Err(Fork)`, the child branch's
`Ok(())`, or the parent branch terminating the process. -/
inductive ForkRes where
  | failed
  | child
  | parentExited (code : Int)
deriving DecidableEq, Repr

/-- The value of `libc::O_WRONLY` on Linux. -/
def O_WRONLY : Nat := 1

/-- The value of `libc::O_CREAT` on Linux. -/
def O_CREAT : Nat := 64

/-- The value of `libc::LOCK_EX`. -/
def LOCK_EX : Nat := 2

/-- The value of `libc::LOCK_NB`. -/
def LOCK_NB : Nat := 4

/-- Flags passed by `create_pid_file` to `open`: `O_WRONLY | O_CREAT`. -/
def openPidFlags : Nat := Nat.lor O_WRONLY O_CREAT

/-- Operation passed by `create_pid_file` to `flock`: `LOCK_EX | LOCK_NB`. -/
def flockOp : Nat := Nat.lor LOCK_EX LOCK_NB

/-- The value of `uid_t::max_value()` (`uid_t` is `u32`). -/
def uid_t_max : Nat := 4294967295

/-- The value of `gid_t::max_value()` (`gid_t` is `u32`). -/
def gid_t_max : Nat := 4294967295

/-- Modelled from the spec: the POSIX `chown` "leave unchanged" sentinel,
`(uid_t)-1`, i.e. `u32::max_value()`. The spec's pid-file chown step says the
unconfigured identity is passed as this sentinel. -/
def chownLeaveUnchangedSentinel : Nat := 4294967295

/-- Conversion of a path's bytes to a C string, mirroring
`pathbuf_into_cstring` in src/lib.rs: fails with `PathContainsNul` exactly
when the bytes contain a NUL byte. -/
def pathbuf_into_cstring (path : List Nat) : Except DaemonizeError (List Nat) :=
  if (0 : Nat) ∈ path then Except.error DaemonizeError.PathContainsNul
  else Except.ok path

/-- Sequential composition of one fallible step with the rest of `start`,
mirroring the `?` operator: an error short-circuits, success appends the
remaining trace. -/
def stepBind {α T : Type} (x : Except DaemonizeError α × List Event)
    (f : α → Outcome T × List Event) : Outcome T × List Event :=
  match x with
  | (Except.error e, t) => (Outcome.err e, t)
  | (Except.ok a, t) => ((f a).1, t ++ (f a).2)

/-- Sequential composition after `perform_fork`: a failed fork maps to
`Err(Fork)`, a parent branch terminates the process, the child continues. -/
def forkBind {T : Type} (x : ForkRes × List Event)
    (f : Unit → Outcome T × List Event) : Outcome T × List Event :=
  match x with
  | (ForkRes.failed, t) => (Outcome.err DaemonizeError.Fork, t)
  | (ForkRes.parentExited code, t) => (Outcome.exited code, t)
  | (ForkRes.child, t) => ((f ()).1, t ++ (f ()).2)

/-- The `maptry!` macro of `start`: apply a fallible step to an optional value,
propagating the error and wrapping the result in `Option`. -/
def maptry {α β : Type} (o : Option α)
    (f : α → Except DaemonizeError β × List Event) :
    Except DaemonizeError (Option β) × List Event :=
  match o with
  | none => (Except.ok none, [])
  | some x =>
    match f x with
    | (Except.error e, t) => (Except.error e, t)
    | (Except.ok b, t) => (Except.ok (some b), t)

/-- Mirror of `create_pid_file` in src/lib.rs: convert the path, `open` it
with `O_WRONLY | O_CREAT` and mode `0o666`, then `flock` it with
`LOCK_EX | LOCK_NB`. Open failure is `OpenPidfile` (no errno captured); lock
failure is `LockPidfile(errno)`. -/
def create_pid_file (e : Env) (path : List Nat) :
    Except DaemonizeError Int × List Event :=
  match pathbuf_into_cstring path with
  | Except.error err => (Except.error err, [])
  | Except.ok p =>
    if e.openPidRet = -1 then
      (Except.error DaemonizeError.OpenPidfile, [Event.openPidfileEv p openPidFlags 438])
    else if e.flockRet = -1 then
      (Except.error (DaemonizeError.LockPidfile e.flockErrno),
        [Event.openPidfileEv p openPidFlags 438, Event.flockEv e.openPidRet flockOp])
    else
      (Except.ok e.openPidRet,
        [Event.openPidfileEv p openPidFlags 438, Event.flockEv e.openPidRet flockOp])

/-- Mirror of `chown_pid_file` in src/lib.rs: convert the path, then `chown`
it; failure is `ChownPidfile(errno)`. -/
def chown_pid_file (e : Env) (path : List Nat) (uid gid : Nat) :
    Except DaemonizeError Unit × List Event :=
  match pathbuf_into_cstring path with
  | Except.error err => (Except.error err, [])
  | Except.ok p =>
    if e.chownRet = -1 then
      (Except.error (DaemonizeError.ChownPidfile e.chownErrno), [Event.chownEv p uid gid])
    else
      (Except.ok (), [Event.chownEv p uid gid])

/-- Mirror of `change_root` in src/lib.rs: convert the path, then `chroot`;
a nonzero return is `Chroot(errno)`. -/
def change_root (e : Env) (path : List Nat) :
    Except DaemonizeError Unit × List Event :=
  match pathbuf_into_cstring path with
  | Except.error err => (Except.error err, [])
  | Except.ok p =>
    if e.chrootRet = 0 then (Except.ok (), [Event.chrootEv p])
    else (Except.error (DaemonizeError.Chroot e.chrootErrno), [Event.chrootEv p])

/-- Mirror of `perform_fork` in src/lib.rs, with the fork's return value
supplied by the oracle: negative is `Err(Fork)`, zero is the child, positive
is the parent, which runs the exit action when one was passed and then calls
`exit(0)`. -/
def perform_fork (ret : Int) (hasExitAction : Bool) : ForkRes × List Event :=
  if ret < 0 then (ForkRes.failed, [Event.forkEv hasExitAction])
  else if ret = 0 then (ForkRes.child, [Event.forkEv hasExitAction])
  else
    (ForkRes.parentExited 0,
      Event.forkEv hasExitAction ::
        ((if hasExitAction then [Event.exitActionEv] else []) ++ [Event.exitProcessEv 0]))

/-- Mirror of the `set_current_dir` step of `start`: any failure maps to
`ChangeDirectory` (no errno captured). -/
def set_current_dir (e : Env) (dir : List Nat) :
    Except DaemonizeError Unit × List Event :=
  (if e.chdirOk then Except.ok () else Except.error DaemonizeError.ChangeDirectory,
    [Event.chdirEv dir])

/-- Mirror of `set_sid` in src/lib.rs: `setsid()`, failing as
`DetachSession(errno)`. -/
def set_sid (e : Env) : Except DaemonizeError Unit × List Event :=
  (if e.setsidRet = -1 then Except.error (DaemonizeError.DetachSession e.setsidErrno)
   else Except.ok (),
    [Event.setsidEv])

/-- Mirror of the `umask(self.umask)` step of `start`; it cannot fail. -/
def umaskStep (mask : Nat) : Except DaemonizeError Unit × List Event :=
  (Except.ok (), [Event.umaskEv mask])

/-- Descriptor duplicated onto a standard stream slot: the null-device
descriptor for `Devnull`, the file's descriptor for `RedirectToFile`. -/
def srcOf (devnull_fd : Int) : StdioImp → Int
  | StdioImp.Devnull => devnull_fd
  | StdioImp.RedirectToFile fd => fd

/-- Mirror of the `process_stdio` closure of `redirect_standard_streams`:
`close` the slot, then `dup2` the chosen source onto it; each failure is
`RedirectStreams(errno)`. -/
def process_stdio (e : Env) (devnull_fd : Int) (fd : Int) (stdio : StdioImp) :
    Except DaemonizeError Unit × List Event :=
  if e.closeRet fd = -1 then
    (Except.error (DaemonizeError.RedirectStreams (e.closeErrno fd)), [Event.closeEv fd])
  else
    if e.dup2Ret (srcOf devnull_fd stdio) fd = -1 then
      (Except.error (DaemonizeError.RedirectStreams (e.dup2Errno (srcOf devnull_fd stdio) fd)),
        [Event.closeEv fd, Event.dup2Ev (srcOf devnull_fd stdio) fd])
    else
      (Except.ok (), [Event.closeEv fd, Event.dup2Ev (srcOf devnull_fd stdio) fd])

/-- Mirror of `redirect_standard_streams` in src/lib.rs: open `/dev/null`
read/write, process stdin (fd 0), stdout (fd 1), stderr (fd 2) in that order,
then close the null-device descriptor. -/
def redirect_standard_streams (e : Env) (stdin stdout stderr : StdioImp) :
    Except DaemonizeError Unit × List Event :=
  if e.openDevnullRet = -1 then
    (Except.error (DaemonizeError.RedirectStreams e.openDevnullErrno), [Event.openDevnullEv])
  else
    match process_stdio e e.openDevnullRet 0 stdin with
    | (Except.error err, t) => (Except.error err, Event.openDevnullEv :: t)
    | (Except.ok _, t0) =>
      match process_stdio e e.openDevnullRet 1 stdout with
      | (Except.error err, t) => (Except.error err, Event.openDevnullEv :: (t0 ++ t))
      | (Except.ok _, t1) =>
        match process_stdio e e.openDevnullRet 2 stderr with
        | (Except.error err, t) => (Except.error err, Event.openDevnullEv :: (t0 ++ t1 ++ t))
        | (Except.ok _, t2) =>
          if e.closeRet e.openDevnullRet = -1 then
            (Except.error (DaemonizeError.RedirectStreams (e.closeErrno e.openDevnullRet)),
              Event.openDevnullEv ::
                (t0 ++ t1 ++ t2 ++ [Event.closeEv e.openDevnullRet]))
          else
            (Except.ok (),
              Event.openDevnullEv ::
                (t0 ++ t1 ++ t2 ++ [Event.closeEv e.openDevnullRet]))

/-- Mirror of `get_user` in src/lib.rs: an `Id` passes through; a `Name` is
converted to a C string (`UserContainsNul` on an interior NUL byte), looked up
via `get_uid_by_name`, and a miss is `UserNotFound`. On a hit the source
recurses as `get_user(User::Id(id))`, whose arm immediately returns `Ok(id)`;
that one recursion step is inlined here so the definition stays structural. -/
def get_user (e : Env) : User → Except DaemonizeError Nat × List Event
  | User.Id id => (Except.ok id, [])
  | User.Name name =>
    if (0 : Nat) ∈ name then (Except.error DaemonizeError.UserContainsNul, [])
    else
      match e.lookupUser name with
      | some id => (Except.ok id, [Event.lookupUserEv name])
      | none => (Except.error DaemonizeError.UserNotFound, [Event.lookupUserEv name])

/-- Mirror of `get_group` in src/lib.rs, symmetric to `get_user`; the source's
one-step recursion `get_group(Group::Id(id))` is inlined as `Ok(id)`. -/
def get_group (e : Env) : Group → Except DaemonizeError Nat × List Event
  | Group.Id id => (Except.ok id, [])
  | Group.Name name =>
    if (0 : Nat) ∈ name then (Except.error DaemonizeError.GroupContainsNul, [])
    else
      match e.lookupGroup name with
      | some id => (Except.ok id, [Event.lookupGroupEv name])
      | none => (Except.error DaemonizeError.GroupNotFound, [Event.lookupGroupEv name])

/-- Mirror of `set_group` in src/lib.rs: `setgid`, failing as
`SetGroup(errno)`. -/
def set_group (e : Env) (gid : Nat) : Except DaemonizeError Unit × List Event :=
  (if e.setgidRet = -1 then Except.error (DaemonizeError.SetGroup e.setgidErrno)
   else Except.ok (),
    [Event.setgidEv gid])

/-- Mirror of `set_user` in src/lib.rs: `setuid`, failing as
`SetUser(errno)`. -/
def set_user (e : Env) (uid : Nat) : Except DaemonizeError Unit × List Event :=
  (if e.setuidRet = -1 then Except.error (DaemonizeError.SetUser e.setuidErrno)
   else Except.ok (),
    [Event.setuidEv uid])

/-- Decimal ASCII bytes of a pid, the bytes `format!` produces for a
nonnegative integer. -/
def decimal (n : Nat) : List Nat :=
  (Nat.toDigits 10 n).map Char.toNat

/-- Mirror of `write_pid_file` in src/lib.rs: `ftruncate` the descriptor to
length zero, then `write` the decimal pid; a truncation failure, or a `write`
return below the buffer length, is `WritePid`. -/
def write_pid_file (e : Env) (fd : Int) : Except DaemonizeError Unit × List Event :=
  if e.ftruncateRet = -1 then
    (Except.error DaemonizeError.WritePid, [Event.ftruncateEv fd 0])
  else if e.writeRet < ((decimal e.getpidVal).length : Int) then
    (Except.error DaemonizeError.WritePid,
      [Event.ftruncateEv fd 0,
        Event.writeEv fd (decimal e.getpidVal) (decimal e.getpidVal).length])
  else
    (Except.ok (),
      [Event.ftruncateEv fd 0,
        Event.writeEv fd (decimal e.getpidVal) (decimal e.getpidVal).length])

/-- Mirror of the argument computation of the chown step in `start`
(src/lib.rs lines 402-409): both identities present pass through; a missing
user is replaced by `uid_t::max_value() - 1`; a missing group by
`gid_t::max_value() - 1`; no pid file, or neither identity, yields `None`. -/
def chownArgs (pid_file : Option (List Nat)) (uid gid : Option Nat) :
    Option (List Nat × Nat × Nat) :=
  match pid_file, uid, gid with
  | some pid, some u, some g => some (pid, u, g)
  | some pid, none, some g => some (pid, uid_t_max - 1, g)
  | some pid, some u, none => some (pid, u, gid_t_max - 1)
  | _, _, _ => none

/-- The chown step of `start`: when `chown_pid_file` was requested, apply
`chown_pid_file` to the computed arguments (if any); otherwise do nothing. -/
def chownStep (e : Env) (chown : Bool) (pid_file : Option (List Nat))
    (uid gid : Option Nat) : Except DaemonizeError (Option Unit) × List Event :=
  if chown then maptry (chownArgs pid_file uid gid) (fun a => chown_pid_file e a.1 a.2.1 a.2.2)
  else (Except.ok none, [])

/-- The privileged-action step of `start`: run the one-shot action, producing
its result. -/
def privilegedStep {T : Type} (c : Daemonize T) : Except DaemonizeError T × List Event :=
  (Except.ok c.privileged_action, [Event.privilegedActionEv])

/-- Mirror of `Daemonize::start` in src/lib.rs: create and lock the pid file,
fork (parent runs the exit action and exits), change directory, create a
session, set the umask, fork again, redirect the standard streams, resolve
user then group, conditionally chown the pid file, run the privileged action,
chroot, drop group then user, write the pid, and return the privileged
action's result. -/
def start {T : Type} (c : Daemonize T) (e : Env) : Outcome T × List Event :=
  stepBind (maptry c.pid_file (create_pid_file e)) fun pid_file_fd =>
  forkBind (perform_fork e.fork1Ret true) fun _ =>
  stepBind (set_current_dir e c.directory) fun _ =>
  stepBind (set_sid e) fun _ =>
  stepBind (umaskStep c.umask) fun _ =>
  forkBind (perform_fork e.fork2Ret false) fun _ =>
  stepBind (redirect_standard_streams e c.stdin c.stdout c.stderr) fun _ =>
  stepBind (maptry c.user (get_user e)) fun uid =>
  stepBind (maptry c.group (get_group e)) fun gid =>
  stepBind (chownStep e c.chown_pid_file c.pid_file uid gid) fun _ =>
  stepBind (privilegedStep c) fun res =>
  stepBind (maptry c.root (change_root e)) fun _ =>
  stepBind (maptry gid (set_group e)) fun _ =>
  stepBind (maptry uid (set_user e)) fun _ =>
  stepBind (maptry pid_file_fd (write_pid_file e)) fun _ =>
  (Outcome.ok res, [])

/-- The uid `start`'s resolution step yields for a configuration, when it
succeeds: a configured `Id` passes through, a configured `Name` goes through
the oracle's lookup. -/
def uidOf {T : Type} (c : Daemonize T) (e : Env) : Option Nat :=
  match c.user with
  | none => none
  | some (User.Id i) => some i
  | some (User.Name n) => e.lookupUser n

/-- The gid `start`'s resolution step yields, when it succeeds. -/
def gidOf {T : Type} (c : Daemonize T) (e : Env) : Option Nat :=
  match c.group with
  | none => none
  | some (Group.Id i) => some i
  | some (Group.Name n) => e.lookupGroup n

/-- Trace segment of the create-and-lock pid file step: open then flock, when
a pid file is configured. -/
def pidSeg {T : Type} (c : Daemonize T) (e : Env) : List Event :=
  match c.pid_file with
  | none => []
  | some p => [Event.openPidfileEv p openPidFlags 438, Event.flockEv e.openPidRet flockOp]

/-- The pid-file descriptor held after a successful create-and-lock step. -/
def pidFdOf {T : Type} (c : Daemonize T) (e : Env) : Option Int :=
  match c.pid_file with
  | none => none
  | some _ => some e.openPidRet

/-- Trace segment of the stream-redirection step: one null-device open, then
for stdin, stdout, stderr in order a close and a dup2 of the chosen source,
then the close of the null-device descriptor. -/
def redirectSeg (e : Env) (s0 s1 s2 : StdioImp) : List Event :=
  Event.openDevnullEv ::
    ([Event.closeEv 0, Event.dup2Ev (srcOf e.openDevnullRet s0) 0] ++
      ([Event.closeEv 1, Event.dup2Ev (srcOf e.openDevnullRet s1) 1] ++
        ([Event.closeEv 2, Event.dup2Ev (srcOf e.openDevnullRet s2) 2] ++
          [Event.closeEv e.openDevnullRet])))

/-- Trace segment of the user-resolution step: one name-service lookup when a
user name is configured. -/
def userSeg : Option User → List Event
  | some (User.Name n) => [Event.lookupUserEv n]
  | _ => []

/-- Trace segment of the group-resolution step. -/
def groupSeg : Option Group → List Event
  | some (Group.Name n) => [Event.lookupGroupEv n]
  | _ => []

/-- Trace segment of the conditional chown step. -/
def chownSeg {T : Type} (c : Daemonize T) (e : Env) : List Event :=
  if c.chown_pid_file then
    match chownArgs c.pid_file (uidOf c e) (gidOf c e) with
    | some a => [Event.chownEv a.1 a.2.1 a.2.2]
    | none => []
  else []

/-- Trace segment of the optional chroot step. -/
def rootSeg : Option (List Nat) → List Event
  | some p => [Event.chrootEv p]
  | none => []

/-- Trace segment of the drop-group step. -/
def gidSeg {T : Type} (c : Daemonize T) (e : Env) : List Event :=
  match gidOf c e with
  | some g => [Event.setgidEv g]
  | none => []

/-- Trace segment of the drop-user step. -/
def uidSeg {T : Type} (c : Daemonize T) (e : Env) : List Event :=
  match uidOf c e with
  | some u => [Event.setuidEv u]
  | none => []

/-- Trace segment of the write-pid step: truncate then write the decimal pid,
when a pid file is configured. -/
def writeSeg {T : Type} (c : Daemonize T) (e : Env) : List Event :=
  match c.pid_file with
  | none => []
  | some _ =>
    [Event.ftruncateEv e.openPidRet 0,
     Event.writeEv e.openPidRet (decimal e.getpidVal) (decimal e.getpidVal).length]

/-- Modelled from the spec's fixed sequence: the complete success-path trace
of `start` in the claimed order — create-and-lock pid file, fork #1, change
working directory, create session, set umask, fork #2, redirect streams
(stdin, stdout, stderr), resolve user, resolve group, conditional chown,
privileged action, chroot, drop group, drop user, write pid. `start`'s
behaviour is compared against it. -/
def planned {T : Type} (c : Daemonize T) (e : Env) : List Event :=
  pidSeg c e ++
    ([Event.forkEv true] ++
      ([Event.chdirEv c.directory] ++
        ([Event.setsidEv] ++
          ([Event.umaskEv c.umask] ++
            ([Event.forkEv false] ++
              (redirectSeg e c.stdin c.stdout c.stderr ++
                (userSeg c.user ++
                  (groupSeg c.group ++
                    (chownSeg c e ++
                      ([Event.privilegedActionEv] ++
                        (rootSeg c.root ++
                          (gidSeg c e ++
                            (uidSeg c e ++
                              writeSeg c e)))))))))))))

/-- Sample builder configuration used to evaluate the theorems on concrete
inputs: pid file at "/t", chown requested, user id 10, group name "g",
chroot to "/j", stdout redirected to the file with descriptor 8. -/
def sampleCfg : Daemonize Nat :=
  { directory := [47]
    pid_file := some [47, 116]
    chown_pid_file := true
    user := some (User.Id 10)
    group := some (Group.Name [103])
    umask := 23
    root := some [47, 106]
    privileged_action := 42
    stdin := StdioImp.Devnull
    stdout := StdioImp.RedirectToFile 8
    stderr := StdioImp.Devnull }

/-- Sample oracle environment in which every syscall succeeds. -/
def sampleEnv : Env :=
  { openPidRet := 3
    flockRet := 0
    flockErrno := 0
    fork1Ret := 0
    chdirOk := true
    setsidRet := 0
    setsidErrno := 0
    fork2Ret := 0
    openDevnullRet := 4
    openDevnullErrno := 0
    closeRet := fun _ => 0
    closeErrno := fun _ => 0
    dup2Ret := fun _ _ => 5
    dup2Errno := fun _ _ => 0
    lookupUser := fun _ => some 7
    lookupGroup := fun _ => some 9
    chownRet := 0
    chownErrno := 0
    chrootRet := 0
    chrootErrno := 0
    setgidRet := 0
    setgidErrno := 0
    setuidRet := 0
    setuidErrno := 0
    getpidVal := 1234
    ftruncateRet := 0
    writeRet := 4 }

/-- Environment in which opening the pid file fails. -/
def envOpenFail : Env :=
  { sampleEnv with openPidRet := -1 }

/-- Environment in which the name-service lookups find nothing. -/
def envLookupFail : Env :=
  { sampleEnv with lookupUser := fun _ => none, lookupGroup := fun _ => none }

/-- Environment in which the chown syscall fails with errno 13. -/
def envChownFail : Env :=
  { sampleEnv with chownRet := -1, chownErrno := 13 }

/-- Sample configuration with chown requested but neither user nor group
configured. -/
def cfgNoIdentity : Daemonize Nat :=
  { sampleCfg with user := none, group := none }

/-- One trace is an initial segment of another: the program performed some
leading steps of the full sequence and nothing else. -/
def Leads (t full : List Event) : Prop :=
  ∃ rest, t ++ rest = full

/-- Behavioural specification of a tail of the `start` chain: a normal return
means the result is the privileged action's value and the trace is exactly the
full planned sequence; an error return means the error satisfies `E` and the
trace is an initial segment of the planned sequence; process termination means
exit code 0 after a planned initial segment followed by the parent-branch exit
events. -/
def StartSpec {T : Type} (p : Outcome T × List Event) (full : List Event)
    (priv : T) (E : DaemonizeError → Prop) : Prop :=
  (∀ t, p.1 = Outcome.ok t → t = priv ∧ p.2 = full) ∧
  (∀ err, p.1 = Outcome.err err → E err ∧ Leads p.2 full) ∧
  (∀ code, p.1 = Outcome.exited code → code = 0 ∧
    ∃ pre, Leads pre full ∧
      (p.2 = pre ++ [Event.exitActionEv, Event.exitProcessEv 0] ∨
        p.2 = pre ++ [Event.exitProcessEv 0]))

/-- Error-side condition threaded through the start walk: a `ChownPidfile`
error can only arise when chowning was requested and the chown argument
computation produced a call to make. -/
def chownErrOnly {T : Type} (c : Daemonize T) (e : Env) (err : DaemonizeError) : Prop :=
  ∀ n, err = DaemonizeError.ChownPidfile n →
    c.chown_pid_file = true ∧
      ∃ a, chownArgs c.pid_file (uidOf c e) (gidOf c e) = some a

theorem leads_refl (l : List Event) : Leads l l :=
  ⟨[], by simp⟩

theorem leads_nil (l : List Event) : Leads [] l :=
  ⟨l, rfl⟩

theorem leads_ext {a b : List Event} (h : Leads a b) (c : List Event) :
    Leads a (b ++ c) := by
  obtain ⟨q, hq⟩ := h
  exact ⟨q ++ c, by rw [← List.append_assoc, hq]⟩

theorem leads_cons (x : Event) {a b : List Event} (h : Leads a b) :
    Leads (x :: a) (x :: b) := by
  obtain ⟨q, hq⟩ := h
  exact ⟨q, by simp [hq]⟩

theorem leads_append (x : List Event) {a b : List Event} (h : Leads a b) :
    Leads (x ++ a) (x ++ b) := by
  obtain ⟨q, hq⟩ := h
  exact ⟨q, by rw [List.append_assoc, hq]⟩

theorem leads_mem {a b : List Event} (h : Leads a b) {ev : Event}
    (hm : ev ∈ a) : ev ∈ b := by
  obtain ⟨q, hq⟩ := h
  rw [← hq]
  exact List.mem_append_left q hm

theorem StartSpec.step {α T : Type} {x : Except DaemonizeError α × List Event}
    {f : α → Outcome T × List Event} {fullx fullrest : List Event} {priv : T}
    {E : DaemonizeError → Prop}
    (hlead : Leads x.2 fullx)
    (herr : ∀ err, x.1 = Except.error err → E err)
    (hok : ∀ a, x.1 = Except.ok a → x.2 = fullx ∧ StartSpec (f a) fullrest priv E) :
    StartSpec (stepBind x f) (fullx ++ fullrest) priv E := by
  rcases x with ⟨r, t⟩
  cases r with
  | error err =>
    refine ⟨?_, ?_, ?_⟩
    · intro t' ht'
      simp [stepBind] at ht'
    · intro err' herr'
      simp [stepBind] at herr'
      subst herr'
      exact ⟨herr err rfl, leads_ext hlead fullrest⟩
    · intro code hcode
      simp [stepBind] at hcode
  | ok a =>
    obtain ⟨ht, hspec⟩ := hok a rfl
    simp only at ht
    obtain ⟨sok, serr, sexit⟩ := hspec
    refine ⟨?_, ?_, ?_⟩
    · intro t' ht'
      simp only [stepBind] at ht' ⊢
      obtain ⟨hpriv, htr⟩ := sok t' ht'
      exact ⟨hpriv, by rw [ht, htr]⟩
    · intro err' herr'
      simp only [stepBind] at herr' ⊢
      obtain ⟨hE, hl⟩ := serr err' herr'
      exact ⟨hE, by rw [ht]; exact leads_append fullx hl⟩
    · intro code hcode
      simp only [stepBind] at hcode ⊢
      obtain ⟨hc, pre, hpre, hsh⟩ := sexit code hcode
      refine ⟨hc, fullx ++ pre, leads_append fullx hpre, ?_⟩
      rcases hsh with h | h
      · exact Or.inl (by rw [ht, h, List.append_assoc])
      · exact Or.inr (by rw [ht, h, List.append_assoc])

theorem StartSpec.fork {T : Type} {ret : Int} {b : Bool}
    {f : Unit → Outcome T × List Event} {fullrest : List Event} {priv : T}
    {E : DaemonizeError → Prop}
    (hE : E DaemonizeError.Fork)
    (hspec : StartSpec (f ()) fullrest priv E) :
    StartSpec (forkBind (perform_fork ret b) f) ([Event.forkEv b] ++ fullrest) priv E := by
  obtain ⟨sok, serr, sexit⟩ := hspec
  unfold perform_fork
  split
  · refine ⟨?_, ?_, ?_⟩
    · intro t' ht'
      simp [forkBind] at ht'
    · intro err' herr'
      simp [forkBind] at herr'
      subst herr'
      exact ⟨hE, ⟨fullrest, rfl⟩⟩
    · intro code hcode
      simp [forkBind] at hcode
  · split
    · refine ⟨?_, ?_, ?_⟩
      · intro t' ht'
        simp only [forkBind] at ht' ⊢
        obtain ⟨hpriv, htr⟩ := sok t' ht'
        exact ⟨hpriv, by rw [htr]⟩
      · intro err' herr'
        simp only [forkBind] at herr' ⊢
        obtain ⟨hEe, hl⟩ := serr err' herr'
        exact ⟨hEe, by
          have := leads_cons (Event.forkEv b) hl
          simpa using this⟩
      · intro code hcode
        simp only [forkBind] at hcode ⊢
        obtain ⟨hc, pre, hpre, hsh⟩ := sexit code hcode
        refine ⟨hc, Event.forkEv b :: pre, ?_, ?_⟩
        · exact leads_cons (Event.forkEv b) hpre
        · rcases hsh with h | h
          · exact Or.inl (by rw [h]; rfl)
          · exact Or.inr (by rw [h]; rfl)
    · refine ⟨?_, ?_, ?_⟩
      · intro t' ht'
        simp [forkBind] at ht'
      · intro err' herr'
        simp [forkBind] at herr'
      · intro code hcode
        simp only [forkBind] at hcode ⊢
        refine ⟨by injection hcode with h; exact h.symm, [Event.forkEv b], ⟨fullrest, rfl⟩, ?_⟩
        cases b with
        | true => exact Or.inl (by simp)
        | false => exact Or.inr (by simp)

theorem StartSpec.final {α T : Type} {x : Except DaemonizeError α × List Event}
    {full : List Event} {priv : T} {E : DaemonizeError → Prop} {res : T}
    (hlead : Leads x.2 full)
    (herr : ∀ err, x.1 = Except.error err → E err)
    (hok : ∀ a, x.1 = Except.ok a → x.2 = full)
    (hres : res = priv) :
    StartSpec (stepBind x (fun _ => (Outcome.ok res, []))) full priv E := by
  rcases x with ⟨r, t⟩
  cases r with
  | error err =>
    refine ⟨?_, ?_, ?_⟩
    · intro t' ht'
      simp [stepBind] at ht'
    · intro err' herr'
      simp [stepBind] at herr'
      subst herr'
      exact ⟨herr err rfl, hlead⟩
    · intro code hcode
      simp [stepBind] at hcode
  | ok a =>
    have ht : t = full := hok a rfl
    refine ⟨?_, ?_, ?_⟩
    · intro t' ht'
      simp only [stepBind] at ht' ⊢
      cases ht'
      exact ⟨hres, by simp [ht]⟩
    · intro err' herr'
      simp [stepBind] at herr'
    · intro code hcode
      simp [stepBind] at hcode

theorem maptry_snd {α β : Type} (o : Option α)
    (f : α → Except DaemonizeError β × List Event) :
    (maptry o f).2 = (match o with | none => [] | some x => (f x).2) := by
  cases o with
  | none => rfl
  | some x =>
    rcases h : f x with ⟨r, t⟩
    cases r <;> simp [maptry, h]

theorem maptry_ok_elim {α β : Type} {o : Option α}
    {f : α → Except DaemonizeError β × List Event} {v : Option β}
    (h : (maptry o f).1 = Except.ok v) :
    (o = none ∧ v = none) ∨
      (∃ x w, o = some x ∧ v = some w ∧ (f x).1 = Except.ok w) := by
  cases o with
  | none =>
    simp [maptry] at h
    exact Or.inl ⟨rfl, h.symm⟩
  | some x =>
    rcases hfx : f x with ⟨r, t⟩
    cases r with
    | error err => simp [maptry, hfx] at h
    | ok w =>
      simp [maptry, hfx] at h
      exact Or.inr ⟨x, w, rfl, h.symm, by simp [hfx]⟩

theorem maptry_err_elim {α β : Type} {o : Option α}
    {f : α → Except DaemonizeError β × List Event} {err : DaemonizeError}
    (h : (maptry o f).1 = Except.error err) :
    ∃ x, o = some x ∧ (f x).1 = Except.error err ∧ (maptry o f).2 = (f x).2 := by
  cases o with
  | none => simp [maptry] at h
  | some x =>
    rcases hfx : f x with ⟨r, t⟩
    cases r with
    | error e2 =>
      simp [maptry, hfx] at h
      exact ⟨x, rfl, by simp [hfx, h], by simp [maptry, hfx]⟩
    | ok w => simp [maptry, hfx] at h

theorem pathbuf_ok_elim {p q : List Nat}
    (h : pathbuf_into_cstring p = Except.ok q) : q = p := by
  unfold pathbuf_into_cstring at h
  split at h
  · simp at h
  · simpa using h.symm

theorem pathbuf_err_elim {p : List Nat} {err : DaemonizeError}
    (h : pathbuf_into_cstring p = Except.error err) :
    err = DaemonizeError.PathContainsNul ∧ (0 : Nat) ∈ p := by
  unfold pathbuf_into_cstring at h
  split at h
  · simp at h
    exact ⟨h.symm, by assumption⟩
  · simp at h

theorem create_pid_file_lead (e : Env) (p : List Nat) :
    Leads (create_pid_file e p).2
      [Event.openPidfileEv p openPidFlags 438, Event.flockEv e.openPidRet flockOp] := by
  rcases hp : pathbuf_into_cstring p with err | q
  · simp only [create_pid_file, hp]
    exact leads_nil _
  · have hq : q = p := pathbuf_ok_elim hp
    subst hq
    simp only [create_pid_file, hp]
    split
    · exact ⟨[Event.flockEv e.openPidRet flockOp], rfl⟩
    · split
      · exact ⟨[], rfl⟩
      · exact ⟨[], rfl⟩

theorem create_pid_file_ok_elim {e : Env} {p : List Nat} {fd : Int}
    (h : (create_pid_file e p).1 = Except.ok fd) :
    fd = e.openPidRet ∧
      (create_pid_file e p).2 =
        [Event.openPidfileEv p openPidFlags 438, Event.flockEv e.openPidRet flockOp] := by
  rcases hp : pathbuf_into_cstring p with err | q
  · simp [create_pid_file, hp] at h
  · have hq : q = p := pathbuf_ok_elim hp
    subst hq
    simp only [create_pid_file, hp] at h ⊢
    split at h
    · simp at h
    · split at h
      · simp at h
      · have hopen : ¬e.openPidRet = -1 := by assumption
        have hflock : ¬e.flockRet = -1 := by assumption
        simp only [if_neg hopen, if_neg hflock] at h ⊢
        simp at h
        exact ⟨h.symm, by simp⟩

theorem create_pid_file_err_elim {e : Env} {p : List Nat} {err : DaemonizeError}
    (h : (create_pid_file e p).1 = Except.error err) :
    err = DaemonizeError.PathContainsNul ∨ err = DaemonizeError.OpenPidfile ∨
      ∃ n, err = DaemonizeError.LockPidfile n := by
  rcases hp : pathbuf_into_cstring p with e2 | q
  · simp only [create_pid_file, hp] at h
    simp at h
    exact Or.inl (h ▸ (pathbuf_err_elim hp).1)
  · simp only [create_pid_file, hp] at h
    split at h
    · simp at h
      exact Or.inr (Or.inl h.symm)
    · split at h
      · simp at h
        exact Or.inr (Or.inr ⟨e.flockErrno, h.symm⟩)
      · simp at h

theorem process_stdio_lead (e : Env) (nd fd : Int) (s : StdioImp) :
    Leads (process_stdio e nd fd s).2
      [Event.closeEv fd, Event.dup2Ev (srcOf nd s) fd] := by
  unfold process_stdio
  split
  · exact ⟨[Event.dup2Ev (srcOf nd s) fd], rfl⟩
  · split
    · exact ⟨[], rfl⟩
    · exact ⟨[], rfl⟩

theorem process_stdio_ok_elim {e : Env} {nd fd : Int} {s : StdioImp} {v : Unit}
    (h : (process_stdio e nd fd s).1 = Except.ok v) :
    (process_stdio e nd fd s).2 = [Event.closeEv fd, Event.dup2Ev (srcOf nd s) fd] := by
  unfold process_stdio at h ⊢
  split at h
  · simp at h
  · split at h
    · simp at h
    · simp_all

theorem process_stdio_err_elim {e : Env} {nd fd : Int} {s : StdioImp}
    {err : DaemonizeError}
    (h : (process_stdio e nd fd s).1 = Except.error err) :
    ∃ n, err = DaemonizeError.RedirectStreams n := by
  unfold process_stdio at h
  split at h
  · simp at h
    exact ⟨_, h.symm⟩
  · split at h
    · simp at h
      exact ⟨_, h.symm⟩
    · simp at h

theorem redirect_lead (e : Env) (s0 s1 s2 : StdioImp) :
    Leads (redirect_standard_streams e s0 s1 s2).2 (redirectSeg e s0 s1 s2) := by
  unfold redirect_standard_streams redirectSeg
  split
  · exact ⟨_, rfl⟩
  · rcases h0 : process_stdio e e.openDevnullRet 0 s0 with ⟨r0, t0⟩
    cases r0 with
    | error err =>
      have hl := process_stdio_lead e e.openDevnullRet 0 s0
      rw [h0] at hl
      simp only [h0]
      exact leads_cons _ (leads_ext hl _)
    | ok u0 =>
      have ht0 : t0 = [Event.closeEv 0, Event.dup2Ev (srcOf e.openDevnullRet s0) 0] := by
        have hh := process_stdio_ok_elim (v := u0) (show _ = _ by rw [h0])
        rwa [h0] at hh
      rcases h1 : process_stdio e e.openDevnullRet 1 s1 with ⟨r1, t1⟩
      cases r1 with
      | error err =>
        have hl := process_stdio_lead e e.openDevnullRet 1 s1
        rw [h1] at hl
        simp only [h0, h1, ht0]
        exact leads_cons _ (leads_append _ (leads_ext hl _))
      | ok u1 =>
        have ht1 : t1 = [Event.closeEv 1, Event.dup2Ev (srcOf e.openDevnullRet s1) 1] := by
          have hh := process_stdio_ok_elim (v := u1) (show _ = _ by rw [h1])
          rwa [h1] at hh
        rcases h2 : process_stdio e e.openDevnullRet 2 s2 with ⟨r2, t2⟩
        cases r2 with
        | error err =>
          have hl := process_stdio_lead e e.openDevnullRet 2 s2
          rw [h2] at hl
          simp only [h0, h1, h2, ht0, ht1, List.append_assoc]
          exact leads_cons _ (leads_append _ (leads_append _ (leads_ext hl _)))
        | ok u2 =>
          have ht2 : t2 = [Event.closeEv 2, Event.dup2Ev (srcOf e.openDevnullRet s2) 2] := by
            have hh := process_stdio_ok_elim (v := u2) (show _ = _ by rw [h2])
            rwa [h2] at hh
          simp only [h0, h1, h2, ht0, ht1, ht2, List.append_assoc]
          split
          · exact ⟨[], rfl⟩
          · exact ⟨[], rfl⟩

theorem redirect_ok_elim {e : Env} {s0 s1 s2 : StdioImp} {v : Unit}
    (h : (redirect_standard_streams e s0 s1 s2).1 = Except.ok v) :
    (redirect_standard_streams e s0 s1 s2).2 = redirectSeg e s0 s1 s2 := by
  unfold redirect_standard_streams at h
  split at h
  · simp at h
  · have hnd : ¬e.openDevnullRet = -1 := by assumption
    rcases h0 : process_stdio e e.openDevnullRet 0 s0 with ⟨r0, t0⟩
    rw [h0] at h
    cases r0 with
    | error err => simp at h
    | ok u0 =>
      have ht0 : t0 = [Event.closeEv 0, Event.dup2Ev (srcOf e.openDevnullRet s0) 0] := by
        have hh := process_stdio_ok_elim (v := u0) (show _ = _ by rw [h0])
        rwa [h0] at hh
      rcases h1 : process_stdio e e.openDevnullRet 1 s1 with ⟨r1, t1⟩
      rw [h1] at h
      cases r1 with
      | error err => simp at h
      | ok u1 =>
        have ht1 : t1 = [Event.closeEv 1, Event.dup2Ev (srcOf e.openDevnullRet s1) 1] := by
          have hh := process_stdio_ok_elim (v := u1) (show _ = _ by rw [h1])
          rwa [h1] at hh
        rcases h2 : process_stdio e e.openDevnullRet 2 s2 with ⟨r2, t2⟩
        rw [h2] at h
        cases r2 with
        | error err => simp at h
        | ok u2 =>
          have ht2 : t2 = [Event.closeEv 2, Event.dup2Ev (srcOf e.openDevnullRet s2) 2] := by
            have hh := process_stdio_ok_elim (v := u2) (show _ = _ by rw [h2])
            rwa [h2] at hh
          simp only at h
          split at h
          · simp at h
          · have hclose : ¬e.closeRet e.openDevnullRet = -1 := by assumption
            unfold redirect_standard_streams redirectSeg
            simp only [if_neg hnd, h0, h1, h2, if_neg hclose, ht0, ht1, ht2,
              List.append_assoc]

theorem redirect_err_elim {e : Env} {s0 s1 s2 : StdioImp} {err : DaemonizeError}
    (h : (redirect_standard_streams e s0 s1 s2).1 = Except.error err) :
    ∃ n, err = DaemonizeError.RedirectStreams n := by
  unfold redirect_standard_streams at h
  split at h
  · simp at h
    exact ⟨_, h.symm⟩
  · rcases h0 : process_stdio e e.openDevnullRet 0 s0 with ⟨r0, t0⟩
    rw [h0] at h
    cases r0 with
    | error e0 =>
      simp at h
      subst h
      exact @process_stdio_err_elim e e.openDevnullRet 0 s0 _ (by rw [h0])
    | ok u0 =>
      rcases h1 : process_stdio e e.openDevnullRet 1 s1 with ⟨r1, t1⟩
      rw [h1] at h
      cases r1 with
      | error e1 =>
        simp at h
        subst h
        exact @process_stdio_err_elim e e.openDevnullRet 1 s1 _ (by rw [h1])
      | ok u1 =>
        rcases h2 : process_stdio e e.openDevnullRet 2 s2 with ⟨r2, t2⟩
        rw [h2] at h
        cases r2 with
        | error e2 =>
          simp at h
          subst h
          exact @process_stdio_err_elim e e.openDevnullRet 2 s2 _ (by rw [h2])
        | ok u2 =>
          simp only at h
          split at h
          · simp at h
            exact ⟨_, h.symm⟩
          · simp at h

theorem get_user_lead (e : Env) (u : User) :
    Leads (get_user e u).2 (userSeg (some u)) := by
  cases u with
  | Id i => exact leads_nil _
  | Name n =>
    simp only [get_user]
    split
    · exact leads_nil _
    · cases hl : e.lookupUser n with
      | none => simp only [hl]; exact ⟨[], rfl⟩
      | some i => simp only [hl]; exact ⟨[], rfl⟩

theorem get_user_ok_elim {e : Env} {u : User} {v : Nat}
    (h : (get_user e u).1 = Except.ok v) :
    (get_user e u).2 = userSeg (some u) ∧
      (match u with
       | User.Id i => v = i
       | User.Name n => e.lookupUser n = some v) := by
  cases u with
  | Id i =>
    simp [get_user] at h
    exact ⟨rfl, h.symm⟩
  | Name n =>
    simp only [get_user] at h ⊢
    split at h
    · simp at h
    · have hn : (0 : Nat) ∉ n := by assumption
      cases hl : e.lookupUser n with
      | none => rw [hl] at h; simp at h
      | some i =>
        rw [hl] at h
        simp at h
        subst h
        simp [hl, userSeg, hn]

theorem get_user_err_elim {e : Env} {u : User} {err : DaemonizeError}
    (h : (get_user e u).1 = Except.error err) :
    err = DaemonizeError.UserContainsNul ∨ err = DaemonizeError.UserNotFound := by
  cases u with
  | Id i => simp [get_user] at h
  | Name n =>
    simp only [get_user] at h
    split at h
    · simp at h
      exact Or.inl h.symm
    · cases hl : e.lookupUser n with
      | none => rw [hl] at h; simp at h; exact Or.inr h.symm
      | some i => rw [hl] at h; simp at h

theorem get_group_lead (e : Env) (g : Group) :
    Leads (get_group e g).2 (groupSeg (some g)) := by
  cases g with
  | Id i => exact leads_nil _
  | Name n =>
    simp only [get_group]
    split
    · exact leads_nil _
    · cases hl : e.lookupGroup n with
      | none => simp only [hl]; exact ⟨[], rfl⟩
      | some i => simp only [hl]; exact ⟨[], rfl⟩

theorem get_group_ok_elim {e : Env} {g : Group} {v : Nat}
    (h : (get_group e g).1 = Except.ok v) :
    (get_group e g).2 = groupSeg (some g) ∧
      (match g with
       | Group.Id i => v = i
       | Group.Name n => e.lookupGroup n = some v) := by
  cases g with
  | Id i =>
    simp [get_group] at h
    exact ⟨rfl, h.symm⟩
  | Name n =>
    simp only [get_group] at h ⊢
    split at h
    · simp at h
    · have hn : (0 : Nat) ∉ n := by assumption
      cases hl : e.lookupGroup n with
      | none => rw [hl] at h; simp at h
      | some i =>
        rw [hl] at h
        simp at h
        subst h
        simp [hl, groupSeg, hn]

theorem get_group_err_elim {e : Env} {g : Group} {err : DaemonizeError}
    (h : (get_group e g).1 = Except.error err) :
    err = DaemonizeError.GroupContainsNul ∨ err = DaemonizeError.GroupNotFound := by
  cases g with
  | Id i => simp [get_group] at h
  | Name n =>
    simp only [get_group] at h
    split at h
    · simp at h
      exact Or.inl h.symm
    · cases hl : e.lookupGroup n with
      | none => rw [hl] at h; simp at h; exact Or.inr h.symm
      | some i => rw [hl] at h; simp at h

theorem set_current_dir_err_elim {e : Env} {d : List Nat} {err : DaemonizeError}
    (h : (set_current_dir e d).1 = Except.error err) :
    err = DaemonizeError.ChangeDirectory := by
  unfold set_current_dir at h
  split at h
  · simp at h
  · simp at h
    exact h.symm

theorem set_sid_err_elim {e : Env} {err : DaemonizeError}
    (h : (set_sid e).1 = Except.error err) :
    err = DaemonizeError.DetachSession e.setsidErrno := by
  unfold set_sid at h
  split at h
  · simp at h
    exact h.symm
  · simp at h

theorem chown_pid_file_lead (e : Env) (p : List Nat) (u g : Nat) :
    Leads (chown_pid_file e p u g).2 [Event.chownEv p u g] := by
  rcases hp : pathbuf_into_cstring p with err | q
  · simp only [chown_pid_file, hp]
    exact leads_nil _
  · have hq : q = p := pathbuf_ok_elim hp
    subst hq
    simp only [chown_pid_file, hp]
    split
    · exact ⟨[], rfl⟩
    · exact ⟨[], rfl⟩

theorem chown_pid_file_ok_elim {e : Env} {p : List Nat} {u g : Nat} {v : Unit}
    (h : (chown_pid_file e p u g).1 = Except.ok v) :
    (chown_pid_file e p u g).2 = [Event.chownEv p u g] := by
  rcases hp : pathbuf_into_cstring p with err | q
  · simp [chown_pid_file, hp] at h
  · have hq : q = p := pathbuf_ok_elim hp
    subst hq
    simp only [chown_pid_file, hp] at h ⊢
    split at h
    · simp at h
    · have hc : ¬e.chownRet = -1 := by assumption
      simp [if_neg hc]

theorem chown_pid_file_err_elim {e : Env} {p : List Nat} {u g : Nat}
    {err : DaemonizeError}
    (h : (chown_pid_file e p u g).1 = Except.error err) :
    err = DaemonizeError.PathContainsNul ∨
      err = DaemonizeError.ChownPidfile e.chownErrno := by
  rcases hp : pathbuf_into_cstring p with e2 | q
  · simp only [chown_pid_file, hp] at h
    simp at h
    exact Or.inl (h ▸ (pathbuf_err_elim hp).1)
  · simp only [chown_pid_file, hp] at h
    split at h
    · simp at h
      exact Or.inr h.symm
    · simp at h

theorem change_root_lead (e : Env) (p : List Nat) :
    Leads (change_root e p).2 [Event.chrootEv p] := by
  rcases hp : pathbuf_into_cstring p with err | q
  · simp only [change_root, hp]
    exact leads_nil _
  · have hq : q = p := pathbuf_ok_elim hp
    subst hq
    simp only [change_root, hp]
    split
    · exact ⟨[], rfl⟩
    · exact ⟨[], rfl⟩

theorem change_root_ok_elim {e : Env} {p : List Nat} {v : Unit}
    (h : (change_root e p).1 = Except.ok v) :
    (change_root e p).2 = [Event.chrootEv p] := by
  rcases hp : pathbuf_into_cstring p with err | q
  · simp [change_root, hp] at h
  · have hq : q = p := pathbuf_ok_elim hp
    subst hq
    simp only [change_root, hp] at h ⊢
    split at h
    · have hc : e.chrootRet = 0 := by assumption
      simp [if_pos hc]
    · simp at h

theorem change_root_err_elim {e : Env} {p : List Nat} {err : DaemonizeError}
    (h : (change_root e p).1 = Except.error err) :
    err = DaemonizeError.PathContainsNul ∨
      err = DaemonizeError.Chroot e.chrootErrno := by
  rcases hp : pathbuf_into_cstring p with e2 | q
  · simp only [change_root, hp] at h
    simp at h
    exact Or.inl (h ▸ (pathbuf_err_elim hp).1)
  · simp only [change_root, hp] at h
    split at h
    · simp at h
    · simp at h
      exact Or.inr h.symm

theorem set_group_err_elim {e : Env} {g : Nat} {err : DaemonizeError}
    (h : (set_group e g).1 = Except.error err) :
    err = DaemonizeError.SetGroup e.setgidErrno := by
  unfold set_group at h
  split at h
  · simp at h
    exact h.symm
  · simp at h

theorem set_user_err_elim {e : Env} {u : Nat} {err : DaemonizeError}
    (h : (set_user e u).1 = Except.error err) :
    err = DaemonizeError.SetUser e.setuidErrno := by
  unfold set_user at h
  split at h
  · simp at h
    exact h.symm
  · simp at h

theorem write_pid_file_lead (e : Env) (fd : Int) :
    Leads (write_pid_file e fd).2
      [Event.ftruncateEv fd 0,
        Event.writeEv fd (decimal e.getpidVal) (decimal e.getpidVal).length] := by
  unfold write_pid_file
  split
  · exact ⟨_, rfl⟩
  · split
    · exact ⟨[], rfl⟩
    · exact ⟨[], rfl⟩

theorem write_pid_file_ok_elim {e : Env} {fd : Int} {v : Unit}
    (h : (write_pid_file e fd).1 = Except.ok v) :
    (write_pid_file e fd).2 =
      [Event.ftruncateEv fd 0,
        Event.writeEv fd (decimal e.getpidVal) (decimal e.getpidVal).length] := by
  unfold write_pid_file at h ⊢
  split at h
  · simp at h
  · split at h
    · simp at h
    · have h1 : ¬e.ftruncateRet = -1 := by assumption
      have h2 : ¬e.writeRet < ((decimal e.getpidVal).length : Int) := by assumption
      simp [if_neg h1, if_neg h2]

theorem write_pid_file_err_elim {e : Env} {fd : Int} {err : DaemonizeError}
    (h : (write_pid_file e fd).1 = Except.error err) :
    err = DaemonizeError.WritePid := by
  unfold write_pid_file at h
  split at h
  · simp at h
    exact h.symm
  · split at h
    · simp at h
      exact h.symm
    · simp at h

theorem stepPid_lead {T : Type} (c : Daemonize T) (e : Env) :
    Leads (maptry c.pid_file (create_pid_file e)).2 (pidSeg c e) := by
  rw [maptry_snd]
  cases hp : c.pid_file with
  | none => simp only [hp, pidSeg]; exact leads_nil _
  | some p => simp only [hp, pidSeg]; exact create_pid_file_lead e p

theorem stepPid_ok {T : Type} {c : Daemonize T} {e : Env} {v : Option Int}
    (h : (maptry c.pid_file (create_pid_file e)).1 = Except.ok v) :
    (maptry c.pid_file (create_pid_file e)).2 = pidSeg c e ∧ v = pidFdOf c e := by
  rcases maptry_ok_elim h with ⟨hnone, hv⟩ | ⟨x, w, hsome, hv, hok⟩
  · subst hv
    rw [maptry_snd]
    simp [pidSeg, pidFdOf, hnone]
  · obtain ⟨hw, htr⟩ := create_pid_file_ok_elim hok
    rw [maptry_snd]
    subst hv
    subst hw
    simp [pidSeg, pidFdOf, hsome, htr]

theorem stepPid_err {T : Type} {c : Daemonize T} {e : Env} {err : DaemonizeError}
    (h : (maptry c.pid_file (create_pid_file e)).1 = Except.error err) :
    err = DaemonizeError.PathContainsNul ∨ err = DaemonizeError.OpenPidfile ∨
      ∃ n, err = DaemonizeError.LockPidfile n := by
  obtain ⟨x, _, hfx, -⟩ := maptry_err_elim h
  exact create_pid_file_err_elim hfx

theorem stepUser_lead {T : Type} (c : Daemonize T) (e : Env) :
    Leads (maptry c.user (get_user e)).2 (userSeg c.user) := by
  rw [maptry_snd]
  cases hu : c.user with
  | none => simp only [hu, userSeg]; exact leads_nil _
  | some u => simp only [hu]; exact get_user_lead e u

theorem stepUser_ok {T : Type} {c : Daemonize T} {e : Env} {v : Option Nat}
    (h : (maptry c.user (get_user e)).1 = Except.ok v) :
    (maptry c.user (get_user e)).2 = userSeg c.user ∧ v = uidOf c e := by
  rcases maptry_ok_elim h with ⟨hnone, hv⟩ | ⟨x, w, hsome, hv, hok⟩
  · subst hv
    rw [maptry_snd]
    simp [userSeg, uidOf, hnone]
  · obtain ⟨htr, hval⟩ := get_user_ok_elim hok
    rw [maptry_snd]
    subst hv
    refine ⟨by simp [hsome, htr], ?_⟩
    cases x with
    | Id i =>
      have hw : w = i := by simpa using hval
      simp [uidOf, hsome, hw]
    | Name n =>
      have hw : e.lookupUser n = some w := by simpa using hval
      simp [uidOf, hsome, hw]

theorem stepUser_err {T : Type} {c : Daemonize T} {e : Env} {err : DaemonizeError}
    (h : (maptry c.user (get_user e)).1 = Except.error err) :
    err = DaemonizeError.UserContainsNul ∨ err = DaemonizeError.UserNotFound := by
  obtain ⟨x, _, hfx, -⟩ := maptry_err_elim h
  exact get_user_err_elim hfx

theorem stepGroup_lead {T : Type} (c : Daemonize T) (e : Env) :
    Leads (maptry c.group (get_group e)).2 (groupSeg c.group) := by
  rw [maptry_snd]
  cases hg : c.group with
  | none => simp only [hg, groupSeg]; exact leads_nil _
  | some g => simp only [hg]; exact get_group_lead e g

theorem stepGroup_ok {T : Type} {c : Daemonize T} {e : Env} {v : Option Nat}
    (h : (maptry c.group (get_group e)).1 = Except.ok v) :
    (maptry c.group (get_group e)).2 = groupSeg c.group ∧ v = gidOf c e := by
  rcases maptry_ok_elim h with ⟨hnone, hv⟩ | ⟨x, w, hsome, hv, hok⟩
  · subst hv
    rw [maptry_snd]
    simp [groupSeg, gidOf, hnone]
  · obtain ⟨htr, hval⟩ := get_group_ok_elim hok
    rw [maptry_snd]
    subst hv
    refine ⟨by simp [hsome, htr], ?_⟩
    cases x with
    | Id i =>
      have hw : w = i := by simpa using hval
      simp [gidOf, hsome, hw]
    | Name n =>
      have hw : e.lookupGroup n = some w := by simpa using hval
      simp [gidOf, hsome, hw]

theorem stepGroup_err {T : Type} {c : Daemonize T} {e : Env} {err : DaemonizeError}
    (h : (maptry c.group (get_group e)).1 = Except.error err) :
    err = DaemonizeError.GroupContainsNul ∨ err = DaemonizeError.GroupNotFound := by
  obtain ⟨x, _, hfx, -⟩ := maptry_err_elim h
  exact get_group_err_elim hfx

theorem stepRoot_lead (e : Env) (r : Option (List Nat)) :
    Leads (maptry r (change_root e)).2 (rootSeg r) := by
  rw [maptry_snd]
  cases hr : r with
  | none => simp only [rootSeg]; exact leads_nil _
  | some p => simp only [rootSeg]; exact change_root_lead e p

theorem stepRoot_ok {e : Env} {r : Option (List Nat)} {v : Option Unit}
    (h : (maptry r (change_root e)).1 = Except.ok v) :
    (maptry r (change_root e)).2 = rootSeg r := by
  rcases maptry_ok_elim h with ⟨hnone, -⟩ | ⟨x, w, hsome, -, hok⟩
  · rw [maptry_snd]
    simp [rootSeg, hnone]
  · rw [maptry_snd]
    simp [rootSeg, hsome, change_root_ok_elim hok]

theorem stepRoot_err {e : Env} {r : Option (List Nat)} {err : DaemonizeError}
    (h : (maptry r (change_root e)).1 = Except.error err) :
    err = DaemonizeError.PathContainsNul ∨ err = DaemonizeError.Chroot e.chrootErrno := by
  obtain ⟨x, _, hfx, -⟩ := maptry_err_elim h
  exact change_root_err_elim hfx

theorem stepGid_lead {T : Type} (c : Daemonize T) (e : Env) :
    Leads (maptry (gidOf c e) (set_group e)).2 (gidSeg c e) := by
  rw [maptry_snd]
  unfold gidSeg
  cases hg : gidOf c e with
  | none => exact leads_nil _
  | some g => exact ⟨[], rfl⟩

theorem stepGid_ok {T : Type} {c : Daemonize T} {e : Env} {v : Option Unit}
    (h : (maptry (gidOf c e) (set_group e)).1 = Except.ok v) :
    (maptry (gidOf c e) (set_group e)).2 = gidSeg c e := by
  rw [maptry_snd]
  unfold gidSeg
  cases hg : gidOf c e with
  | none => rfl
  | some g => rfl

theorem stepGid_err {T : Type} {c : Daemonize T} {e : Env} {err : DaemonizeError}
    (h : (maptry (gidOf c e) (set_group e)).1 = Except.error err) :
    err = DaemonizeError.SetGroup e.setgidErrno := by
  obtain ⟨x, _, hfx, -⟩ := maptry_err_elim h
  exact set_group_err_elim hfx

theorem stepUid_lead {T : Type} (c : Daemonize T) (e : Env) :
    Leads (maptry (uidOf c e) (set_user e)).2 (uidSeg c e) := by
  rw [maptry_snd]
  unfold uidSeg
  cases hu : uidOf c e with
  | none => exact leads_nil _
  | some u => exact ⟨[], rfl⟩

theorem stepUid_ok {T : Type} {c : Daemonize T} {e : Env} {v : Option Unit}
    (h : (maptry (uidOf c e) (set_user e)).1 = Except.ok v) :
    (maptry (uidOf c e) (set_user e)).2 = uidSeg c e := by
  rw [maptry_snd]
  unfold uidSeg
  cases hu : uidOf c e with
  | none => rfl
  | some u => rfl

theorem stepUid_err {T : Type} {c : Daemonize T} {e : Env} {err : DaemonizeError}
    (h : (maptry (uidOf c e) (set_user e)).1 = Except.error err) :
    err = DaemonizeError.SetUser e.setuidErrno := by
  obtain ⟨x, _, hfx, -⟩ := maptry_err_elim h
  exact set_user_err_elim hfx

theorem stepWrite_lead {T : Type} (c : Daemonize T) (e : Env) :
    Leads (maptry (pidFdOf c e) (write_pid_file e)).2 (writeSeg c e) := by
  rw [maptry_snd]
  unfold pidFdOf writeSeg
  cases hp : c.pid_file with
  | none => exact leads_nil _
  | some p => exact write_pid_file_lead e e.openPidRet

theorem stepWrite_ok {T : Type} {c : Daemonize T} {e : Env} {v : Option Unit}
    (h : (maptry (pidFdOf c e) (write_pid_file e)).1 = Except.ok v) :
    (maptry (pidFdOf c e) (write_pid_file e)).2 = writeSeg c e := by
  rw [maptry_snd]
  unfold writeSeg
  rcases maptry_ok_elim h with ⟨hnone, -⟩ | ⟨x, w, hsome, -, hok⟩
  · cases hp : c.pid_file with
    | none => simp [pidFdOf, hp]
    | some p =>
      unfold pidFdOf at hnone
      rw [hp] at hnone
      simp at hnone
  · cases hp : c.pid_file with
    | none =>
      unfold pidFdOf at hsome
      rw [hp] at hsome
      simp at hsome
    | some p =>
      unfold pidFdOf at hsome
      rw [hp] at hsome
      simp at hsome
      subst hsome
      simp only [pidFdOf, hp]
      exact write_pid_file_ok_elim hok

theorem stepWrite_err {T : Type} {c : Daemonize T} {e : Env} {err : DaemonizeError}
    (h : (maptry (pidFdOf c e) (write_pid_file e)).1 = Except.error err) :
    err = DaemonizeError.WritePid := by
  obtain ⟨x, _, hfx, -⟩ := maptry_err_elim h
  exact write_pid_file_err_elim hfx

theorem chownStep_lead {T : Type} (c : Daemonize T) (e : Env) :
    Leads (chownStep e c.chown_pid_file c.pid_file (uidOf c e) (gidOf c e)).2
      (chownSeg c e) := by
  unfold chownStep chownSeg
  by_cases hb : c.chown_pid_file = true
  · simp only [if_pos hb]
    rw [maptry_snd]
    cases ha : chownArgs c.pid_file (uidOf c e) (gidOf c e) with
    | none => simp only [ha]; exact leads_nil _
    | some a => simp only [ha]; exact chown_pid_file_lead e a.1 a.2.1 a.2.2
  · simp only [if_neg hb]
    exact leads_nil _

theorem chownStep_ok {T : Type} {c : Daemonize T} {e : Env} {v : Option Unit}
    (h : (chownStep e c.chown_pid_file c.pid_file (uidOf c e) (gidOf c e)).1 =
      Except.ok v) :
    (chownStep e c.chown_pid_file c.pid_file (uidOf c e) (gidOf c e)).2 =
      chownSeg c e := by
  unfold chownStep at h
  unfold chownStep chownSeg
  by_cases hb : c.chown_pid_file = true
  · simp only [if_pos hb] at h ⊢
    rw [maptry_snd]
    cases ha : chownArgs c.pid_file (uidOf c e) (gidOf c e) with
    | none => simp only [ha]
    | some a =>
      simp only [ha]
      rcases maptry_ok_elim h with ⟨hnone, -⟩ | ⟨x, w, hsome, -, hok⟩
      · rw [hnone] at ha
        cases ha
      · rw [hsome] at ha
        injection ha with hxa
        subst hxa
        exact chown_pid_file_ok_elim hok
  · simp only [if_neg hb]

theorem chownStep_err {T : Type} {c : Daemonize T} {e : Env} {err : DaemonizeError}
    (h : (chownStep e c.chown_pid_file c.pid_file (uidOf c e) (gidOf c e)).1 =
      Except.error err) :
    (err = DaemonizeError.PathContainsNul ∨
        err = DaemonizeError.ChownPidfile e.chownErrno) ∧
      c.chown_pid_file = true ∧
      ∃ a, chownArgs c.pid_file (uidOf c e) (gidOf c e) = some a := by
  unfold chownStep at h
  by_cases hb : c.chown_pid_file = true
  · simp only [if_pos hb] at h
    obtain ⟨a, ha, hfa, -⟩ := maptry_err_elim h
    rcases chown_pid_file_err_elim hfa with h1 | h1
    · exact ⟨Or.inl h1, hb, ⟨a, ha⟩⟩
    · exact ⟨Or.inr h1, hb, ⟨a, ha⟩⟩
  · simp only [if_neg hb] at h
    simp at h

theorem start_spec {T : Type} (c : Daemonize T) (e : Env) :
    StartSpec (start c e) (planned c e) c.privileged_action (chownErrOnly c e) := by
  unfold start planned
  refine StartSpec.step (stepPid_lead c e) ?_ ?_
  · intro err herr n hn
    subst hn
    rcases stepPid_err herr with h | h | ⟨m, h⟩ <;> simp at h
  · intro fdOpt hfd
    obtain ⟨htr1, hv1⟩ := stepPid_ok hfd
    subst hv1
    refine ⟨htr1, ?_⟩
    refine StartSpec.fork (fun n hn => by simp at hn) ?_
    refine StartSpec.step ⟨[], rfl⟩ ?_ ?_
    · intro err herr n hn
      subst hn
      have h := set_current_dir_err_elim herr
      simp at h
    · intro a2 _
      refine ⟨rfl, ?_⟩
      refine StartSpec.step ⟨[], rfl⟩ ?_ ?_
      · intro err herr n hn
        subst hn
        have h := set_sid_err_elim herr
        simp at h
      · intro a3 _
        refine ⟨rfl, ?_⟩
        refine StartSpec.step ⟨[], rfl⟩ ?_ ?_
        · intro err herr
          simp [umaskStep] at herr
        · intro a4 _
          refine ⟨rfl, ?_⟩
          refine StartSpec.fork (fun n hn => by simp at hn) ?_
          refine StartSpec.step (redirect_lead e c.stdin c.stdout c.stderr) ?_ ?_
          · intro err herr n hn
            subst hn
            obtain ⟨m, h⟩ := redirect_err_elim herr
            simp at h
          · intro a5 h5
            refine ⟨redirect_ok_elim h5, ?_⟩
            refine StartSpec.step (stepUser_lead c e) ?_ ?_
            · intro err herr n hn
              subst hn
              rcases stepUser_err herr with h | h <;> simp at h
            · intro uid huid
              obtain ⟨htrU, hvU⟩ := stepUser_ok huid
              subst hvU
              refine ⟨htrU, ?_⟩
              refine StartSpec.step (stepGroup_lead c e) ?_ ?_
              · intro err herr n hn
                subst hn
                rcases stepGroup_err herr with h | h <;> simp at h
              · intro gid hgid
                obtain ⟨htrG, hvG⟩ := stepGroup_ok hgid
                subst hvG
                refine ⟨htrG, ?_⟩
                refine StartSpec.step (chownStep_lead c e) ?_ ?_
                · intro err herr n hn
                  subst hn
                  obtain ⟨-, hb, ha⟩ := chownStep_err herr
                  exact ⟨hb, ha⟩
                · intro a6 h6
                  refine ⟨chownStep_ok h6, ?_⟩
                  refine StartSpec.step ⟨[], rfl⟩ ?_ ?_
                  · intro err herr
                    simp [privilegedStep] at herr
                  · intro res hres
                    have hresp : res = c.privileged_action := by
                      simp [privilegedStep] at hres
                      exact hres.symm
                    refine ⟨rfl, ?_⟩
                    refine StartSpec.step (stepRoot_lead e c.root) ?_ ?_
                    · intro err herr n hn
                      subst hn
                      rcases stepRoot_err herr with h | h <;> simp at h
                    · intro a7 h7
                      refine ⟨stepRoot_ok h7, ?_⟩
                      refine StartSpec.step (stepGid_lead c e) ?_ ?_
                      · intro err herr n hn
                        subst hn
                        have h := stepGid_err herr
                        simp at h
                      · intro a8 h8
                        refine ⟨stepGid_ok h8, ?_⟩
                        refine StartSpec.step (stepUid_lead c e) ?_ ?_
                        · intro err herr n hn
                          subst hn
                          have h := stepUid_err herr
                          simp at h
                        · intro a9 h9
                          refine ⟨stepUid_ok h9, ?_⟩
                          refine StartSpec.final (stepWrite_lead c e) ?_ ?_ hresp
                          · intro err herr n hn
                            subst hn
                            have h := stepWrite_err herr
                            simp at h
                          · intro a10 h10
                            exact stepWrite_ok h10

theorem chownEv_planned_elim {T : Type} {c : Daemonize T} {e : Env}
    {p : List Nat} {u g : Nat} (hm : Event.chownEv p u g ∈ planned c e) :
    Event.chownEv p u g ∈ chownSeg c e := by
  unfold planned at hm
  rcases List.mem_append.1 hm with h | hm
  · exfalso
    revert h
    unfold pidSeg
    rcases c.pid_file with _ | q <;> simp
  rcases List.mem_append.1 hm with h | hm
  · simp at h
  rcases List.mem_append.1 hm with h | hm
  · simp at h
  rcases List.mem_append.1 hm with h | hm
  · simp at h
  rcases List.mem_append.1 hm with h | hm
  · simp at h
  rcases List.mem_append.1 hm with h | hm
  · simp at h
  rcases List.mem_append.1 hm with h | hm
  · exfalso
    revert h
    unfold redirectSeg
    simp
  rcases List.mem_append.1 hm with h | hm
  · exfalso
    revert h
    unfold userSeg
    rcases c.user with _ | u2
    · simp
    · rcases u2 with n | i <;> simp
  rcases List.mem_append.1 hm with h | hm
  · exfalso
    revert h
    unfold groupSeg
    rcases c.group with _ | g2
    · simp
    · rcases g2 with n | i <;> simp
  rcases List.mem_append.1 hm with h | hm
  · exact h
  exfalso
  rcases List.mem_append.1 hm with h | hm
  · simp at h
  rcases List.mem_append.1 hm with h | hm
  · revert h
    unfold rootSeg
    rcases c.root with _ | q <;> simp
  rcases List.mem_append.1 hm with h | hm
  · revert h
    unfold gidSeg
    rcases gidOf c e with _ | q <;> simp
  rcases List.mem_append.1 hm with h | h
  · revert h
    unfold uidSeg
    rcases uidOf c e with _ | q <;> simp
  · revert h
    unfold writeSeg
    rcases c.pid_file with _ | q <;> simp

/-- C1: for every configuration and oracle environment, a normal return of
`start` yields the privileged action's result with the trace exactly equal to
the planned sequence (create-and-lock pid file, fork #1, chdir, setsid,
umask, fork #2, redirect streams, resolve user, resolve group, conditional
chown, privileged action, chroot, drop group, drop user, write pid); an error
return leaves a trace that is an initial segment of that sequence, so a step
runs only when all earlier steps succeeded; and a parent branch terminates
with exit status 0. -/
theorem c1_start_order {T : Type} (c : Daemonize T) (e : Env) :
    (∀ t, (start c e).1 = Outcome.ok t →
        t = c.privileged_action ∧ (start c e).2 = planned c e) ∧
    (∀ err, (start c e).1 = Outcome.err err →
        ∃ rest, (start c e).2 ++ rest = planned c e) ∧
    (∀ code, (start c e).1 = Outcome.exited code → code = 0) := by
  obtain ⟨sok, serr, sexit⟩ := start_spec c e
  exact ⟨sok, fun err h => (serr err h).2, fun code h => (sexit code h).1⟩

/-- Witness for C1: on the sample configuration in the all-success
environment, start returns the privileged result and its trace is exactly the
planned sequence. -/
theorem c1_start_order_witness :
    (start sampleCfg sampleEnv).1 = Outcome.ok 42 ∧
      (start sampleCfg sampleEnv).2 = planned sampleCfg sampleEnv := by
  refine ⟨by decide, ?_⟩
  exact ((c1_start_order sampleCfg sampleEnv).1 42 (by decide)).2

/-- C7: a negative fork return yields the `Fork` error (and `start` maps it to
`Err(Fork)`), a zero return is the child which continues, and a positive
return is the parent branch, which runs the exit action exactly when one was
supplied and then terminates the process with status 0; consequently `start`
only ever exits with status 0 in parent branches. -/
theorem c7_perform_fork {T : Type} (c : Daemonize T) (e : Env) (ret : Int)
    (b : Bool) (f : Unit → Outcome T × List Event) :
    (ret < 0 → perform_fork ret b = (ForkRes.failed, [Event.forkEv b]) ∧
      forkBind (perform_fork ret b) f =
        (Outcome.err DaemonizeError.Fork, [Event.forkEv b])) ∧
    (ret = 0 → perform_fork ret b = (ForkRes.child, [Event.forkEv b])) ∧
    (0 < ret → perform_fork ret b =
      (ForkRes.parentExited 0,
        Event.forkEv b ::
          ((if b then [Event.exitActionEv] else []) ++ [Event.exitProcessEv 0]))) ∧
    (∀ code, (start c e).1 = Outcome.exited code → code = 0) := by
  refine ⟨?_, ?_, ?_, ?_⟩
  · intro hlt
    have hp : perform_fork ret b = (ForkRes.failed, [Event.forkEv b]) := by
      unfold perform_fork
      rw [if_pos hlt]
    exact ⟨hp, by rw [hp]; rfl⟩
  · intro heq
    unfold perform_fork
    rw [if_neg (by omega), if_pos heq]
  · intro hgt
    unfold perform_fork
    rw [if_neg (by omega), if_neg (by omega)]
  · intro code h
    exact ((start_spec c e).2.2 code h).1

/-- Witness for C7 at concrete fork return values. -/
theorem c7_perform_fork_witness :
    perform_fork (-1) true = (ForkRes.failed, [Event.forkEv true]) ∧
    perform_fork 0 false = (ForkRes.child, [Event.forkEv false]) ∧
    perform_fork 7 true =
      (ForkRes.parentExited 0,
        [Event.forkEv true, Event.exitActionEv, Event.exitProcessEv 0]) := by
  refine ⟨?_, ?_, ?_⟩
  · exact ((c7_perform_fork sampleCfg sampleEnv (-1) true
      (fun _ => (Outcome.ok 0, []))).1 (by decide)).1
  · exact (c7_perform_fork sampleCfg sampleEnv 0 false
      (fun _ => (Outcome.ok 0, []))).2.1 rfl
  · exact (c7_perform_fork sampleCfg sampleEnv 7 true
      (fun _ => (Outcome.ok 0, []))).2.2.1 (by decide)

/-- C9: if chowning was requested but no pid-file path is configured, or
neither a user nor a group is configured, then `start` performs no chown call
in any run (no chown event ever appears in its trace) and never reports a
`ChownPidfile` error: the chown step is silently skipped. -/
theorem c9_chown_silently_skipped {T : Type} (c : Daemonize T) (e : Env)
    (hchown : c.chown_pid_file = true)
    (hcase : c.pid_file = none ∨ (c.user = none ∧ c.group = none)) :
    (∀ p u g, Event.chownEv p u g ∉ (start c e).2) ∧
    (∀ n, (start c e).1 ≠ Outcome.err (DaemonizeError.ChownPidfile n)) := by
  have hargs : chownArgs c.pid_file (uidOf c e) (gidOf c e) = none := by
    rcases hcase with hp | ⟨hu, hg⟩
    · rcases hu2 : uidOf c e with _ | q <;> rcases hg2 : gidOf c e with _ | r <;>
        simp [chownArgs, hp]
    · have hu2 : uidOf c e = none := by simp [uidOf, hu]
      have hg2 : gidOf c e = none := by simp [gidOf, hg]
      rcases hp : c.pid_file with _ | q <;> simp [chownArgs, hu2, hg2]
  obtain ⟨sok, serr, sexit⟩ := start_spec c e
  have hplanned : ∀ p u g, Event.chownEv p u g ∉ planned c e := by
    intro p u g hpm
    have h2 := chownEv_planned_elim hpm
    unfold chownSeg at h2
    rw [hargs] at h2
    by_cases hb : c.chown_pid_file = true
    · rw [if_pos hb] at h2
      simp at h2
    · rw [if_neg hb] at h2
      simp at h2
  constructor
  · intro p u g hm
    rcases houtcome : (start c e).1 with t | err | code
    · have htr := (sok t houtcome).2
      rw [htr] at hm
      exact hplanned p u g hm
    · have hl := (serr err houtcome).2
      exact hplanned p u g (leads_mem hl hm)
    · obtain ⟨-, pre, hpre, hsh⟩ := sexit code houtcome
      have hmem : Event.chownEv p u g ∈ planned c e := by
        rcases hsh with hsh | hsh <;> rw [hsh] at hm <;>
          rcases List.mem_append.1 hm with h | h
        · exact leads_mem hpre h
        · simp at h
        · exact leads_mem hpre h
        · simp at h
      exact hplanned p u g hmem
  · intro n hne
    obtain ⟨-, a, ha⟩ := (serr _ hne).1 n rfl
    rw [hargs] at ha
    cases ha

/-- Witness for C9: with chown requested but no identity configured, the
sample run performs no chown call and reports no chown error. -/
theorem c9_chown_silently_skipped_witness :
    Event.chownEv [47, 116] 1 2 ∉ (start cfgNoIdentity sampleEnv).2 ∧
      (start cfgNoIdentity sampleEnv).1 ≠
        Outcome.err (DaemonizeError.ChownPidfile 5) :=
  ⟨(c9_chown_silently_skipped cfgNoIdentity sampleEnv rfl
      (Or.inr ⟨rfl, rfl⟩)).1 [47, 116] 1 2,
    (c9_chown_silently_skipped cfgNoIdentity sampleEnv rfl
      (Or.inr ⟨rfl, rfl⟩)).2 5⟩

/-- C2 counterexample: with only a group configured, the uid argument the
chown step passes is `uid_t::max_value() - 1` = 4294967294, which is not the
POSIX chown "leave unchanged" sentinel `(uid_t)-1` = 4294967295. -/
theorem c2_chown_sentinel_counterexample :
    chownArgs (some [47]) none (some 5) = some ([47], 4294967294, 5) ∧
      (4294967294 : Nat) ≠ chownLeaveUnchangedSentinel := by
  exact ⟨rfl, by decide⟩

/-- C2 amended: when chown is requested with a pid file and exactly one of
user/group configured, the unconfigured identity is passed as
`max_value() - 1` (one less than the OS leave-unchanged sentinel), both
identities pass through when configured, no call is made without a pid file
or identity, and a chown syscall failure yields `ChownPidfile(errno)`. -/
theorem c2_chown_args (e : Env) (p : List Nat) (u g : Nat) :
    chownArgs (some p) (some u) (some g) = some (p, u, g) ∧
    chownArgs (some p) none (some g) = some (p, uid_t_max - 1, g) ∧
    chownArgs (some p) (some u) none = some (p, u, gid_t_max - 1) ∧
    chownArgs (some p) none none = none ∧
    (∀ uo go, chownArgs none uo go = none) ∧
    uid_t_max - 1 = 4294967294 ∧
    gid_t_max - 1 = 4294967294 ∧
    ((0 : Nat) ∉ p → e.chownRet = -1 →
      chown_pid_file e p u g =
        (Except.error (DaemonizeError.ChownPidfile e.chownErrno),
          [Event.chownEv p u g])) := by
  refine ⟨rfl, rfl, rfl, rfl, ?_, rfl, rfl, ?_⟩
  · intro uo go
    cases uo <;> cases go <;> rfl
  · intro hn hc
    have hpc : pathbuf_into_cstring p = Except.ok p := by
      unfold pathbuf_into_cstring
      rw [if_neg hn]
    unfold chown_pid_file
    rw [hpc]
    simp [hc]

/-- Witness for C2 at a failing chown syscall with errno 13. -/
theorem c2_chown_args_witness :
    chown_pid_file envChownFail [47] 1 2 =
      (Except.error (DaemonizeError.ChownPidfile 13), [Event.chownEv [47] 1 2]) :=
  (c2_chown_args envChownFail [47] 1 2).2.2.2.2.2.2.2 (by decide) (by decide)

/-- C3 counterexample: an open failure yields the `OpenPidfile` error, which
carries no OS error code at all (the claim says it carries one). -/
theorem c3_open_errno_counterexample :
    (create_pid_file envOpenFail [47]).1 = Except.error DaemonizeError.OpenPidfile ∧
      errnoOf DaemonizeError.OpenPidfile = none := by
  exact ⟨rfl, rfl⟩

/-- C3 amended: `create_pid_file` opens or creates the pid file for writing
(`O_WRONLY | O_CREAT`, mode 0o666) and immediately attempts an exclusive
non-blocking lock (`LOCK_EX | LOCK_NB`); an open failure yields the
`OpenPidfile` error (which carries no OS error code) with no lock attempted,
and a lock failure yields `LockPidfile(errno)` with no further call. -/
theorem c3_create_pid_file (e : Env) (p : List Nat) (h : (0 : Nat) ∉ p) :
    (e.openPidRet = -1 →
      create_pid_file e p =
        (Except.error DaemonizeError.OpenPidfile,
          [Event.openPidfileEv p openPidFlags 438])) ∧
    (e.openPidRet ≠ -1 → e.flockRet = -1 →
      create_pid_file e p =
        (Except.error (DaemonizeError.LockPidfile e.flockErrno),
          [Event.openPidfileEv p openPidFlags 438,
            Event.flockEv e.openPidRet flockOp])) ∧
    (e.openPidRet ≠ -1 → e.flockRet ≠ -1 →
      create_pid_file e p =
        (Except.ok e.openPidRet,
          [Event.openPidfileEv p openPidFlags 438,
            Event.flockEv e.openPidRet flockOp])) ∧
    Nat.land flockOp LOCK_NB = LOCK_NB ∧
    Nat.land flockOp LOCK_EX = LOCK_EX ∧
    Nat.land openPidFlags O_WRONLY = O_WRONLY ∧
    Nat.land openPidFlags O_CREAT = O_CREAT ∧
    errnoOf DaemonizeError.OpenPidfile = none ∧
    (∀ n, errnoOf (DaemonizeError.LockPidfile n) = some n) := by
  have hpc : pathbuf_into_cstring p = Except.ok p := by
    unfold pathbuf_into_cstring
    rw [if_neg h]
  refine ⟨?_, ?_, ?_, by decide, by decide, by decide, by decide, rfl, fun n => rfl⟩
  · intro ho
    unfold create_pid_file
    rw [hpc]
    simp [ho]
  · intro ho hf
    unfold create_pid_file
    rw [hpc]
    simp [ho, hf]
  · intro ho hf
    unfold create_pid_file
    rw [hpc]
    simp [ho, hf]

/-- Witness for C3: open-and-lock succeeds in the sample environment and a
failing second-instance lock yields `LockPidfile(errno)`. -/
theorem c3_create_pid_file_witness :
    create_pid_file sampleEnv [47] =
      (Except.ok 3,
        [Event.openPidfileEv [47] openPidFlags 438, Event.flockEv 3 flockOp]) :=
  (c3_create_pid_file sampleEnv [47] (by decide)).2.2.1 (by decide) (by decide)

/-- C4: user resolution passes a numeric id through unchanged; a name
containing a NUL byte fails as `UserContainsNul`; a name the lookup does not
know fails as `UserNotFound`; otherwise the looked-up uid is returned.
Group resolution is symmetric with `GroupContainsNul` / `GroupNotFound`. -/
theorem c4_resolve_user_group (e : Env) :
    (∀ i, (get_user e (User.Id i)).1 = Except.ok i) ∧
    (∀ n, (0 : Nat) ∈ n →
      (get_user e (User.Name n)).1 = Except.error DaemonizeError.UserContainsNul) ∧
    (∀ n, (0 : Nat) ∉ n → e.lookupUser n = none →
      (get_user e (User.Name n)).1 = Except.error DaemonizeError.UserNotFound) ∧
    (∀ n i, (0 : Nat) ∉ n → e.lookupUser n = some i →
      (get_user e (User.Name n)).1 = Except.ok i) ∧
    (∀ i, (get_group e (Group.Id i)).1 = Except.ok i) ∧
    (∀ n, (0 : Nat) ∈ n →
      (get_group e (Group.Name n)).1 = Except.error DaemonizeError.GroupContainsNul) ∧
    (∀ n, (0 : Nat) ∉ n → e.lookupGroup n = none →
      (get_group e (Group.Name n)).1 = Except.error DaemonizeError.GroupNotFound) ∧
    (∀ n i, (0 : Nat) ∉ n → e.lookupGroup n = some i →
      (get_group e (Group.Name n)).1 = Except.ok i) := by
  refine ⟨fun i => rfl, ?_, ?_, ?_, fun i => rfl, ?_, ?_, ?_⟩
  · intro n hn
    simp [get_user, hn]
  · intro n hn hl
    simp [get_user, hn, hl]
  · intro n i hn hl
    simp [get_user, hn, hl]
  · intro n hn
    simp [get_group, hn]
  · intro n hn hl
    simp [get_group, hn, hl]
  · intro n i hn hl
    simp [get_group, hn, hl]

/-- Witness for C4 at concrete names and environments. -/
theorem c4_resolve_user_group_witness :
    (get_user sampleEnv (User.Name [65])).1 = Except.ok 7 ∧
    (get_user envLookupFail (User.Name [65])).1 =
      Except.error DaemonizeError.UserNotFound ∧
    (get_user sampleEnv (User.Name [65, 0])).1 =
      Except.error DaemonizeError.UserContainsNul ∧
    (get_group envLookupFail (Group.Name [66])).1 =
      Except.error DaemonizeError.GroupNotFound :=
  ⟨(c4_resolve_user_group sampleEnv).2.2.2.1 [65] 7 (by decide) (by decide),
    (c4_resolve_user_group envLookupFail).2.2.1 [65] (by decide) (by decide),
    (c4_resolve_user_group sampleEnv).2.1 [65, 0] (by decide),
    (c4_resolve_user_group envLookupFail).2.2.2.2.2.2.1 [66] (by decide) (by decide)⟩

/-- C5: `write_pid_file` first truncates the descriptor to length zero and
then writes exactly the decimal ASCII representation of the pid and nothing
else; a truncation failure stops before the write and yields `WritePid`, a
write return below the buffer length yields `WritePid`, and otherwise it
returns `Ok(())`. -/
theorem c5_write_pid_file (e : Env) (fd : Int) :
    (e.ftruncateRet = -1 →
      write_pid_file e fd =
        (Except.error DaemonizeError.WritePid, [Event.ftruncateEv fd 0])) ∧
    (e.ftruncateRet ≠ -1 →
      (write_pid_file e fd).2 =
        [Event.ftruncateEv fd 0,
          Event.writeEv fd (decimal e.getpidVal) (decimal e.getpidVal).length] ∧
      (e.writeRet < ((decimal e.getpidVal).length : Int) →
        (write_pid_file e fd).1 = Except.error DaemonizeError.WritePid) ∧
      (¬e.writeRet < ((decimal e.getpidVal).length : Int) →
        (write_pid_file e fd).1 = Except.ok ())) ∧
    decimal e.getpidVal = (Nat.repr e.getpidVal).toList.map Char.toNat := by
  refine ⟨?_, ?_, rfl⟩
  · intro hf
    unfold write_pid_file
    simp [hf]
  · intro hf
    refine ⟨?_, ?_, ?_⟩
    · unfold write_pid_file
      simp only [if_neg hf]
      split <;> rfl
    · intro hw
      unfold write_pid_file
      simp [hf, hw]
    · intro hw
      unfold write_pid_file
      simp [hf, hw]

/-- Witness for C5: pid 1234 is written as the four ASCII bytes "1234" and a
short write is reported as `WritePid`. -/
theorem c5_write_pid_file_witness :
    (write_pid_file sampleEnv 3).1 = Except.ok () ∧
      (write_pid_file sampleEnv 3).2 =
        [Event.ftruncateEv 3 0, Event.writeEv 3 [49, 50, 51, 52] 4] := by
  refine ⟨((c5_write_pid_file sampleEnv 3).2.1 (by decide)).2.2 (by decide), ?_⟩
  have h := ((c5_write_pid_file sampleEnv 3).2.1 (by decide)).1
  exact h.trans (by decide)

/-- C6: the stream redirector opens one null-device descriptor, processes the
three standard slots in the fixed order stdin (0), stdout (1), stderr (2) —
duplicating the null descriptor for `Devnull` and the supplied file's
descriptor for `RedirectToFile` — closes the null descriptor only after all
three slots, reports every failure as `RedirectStreams(errno)`, and after a
failure performs none of the remaining sequence. -/
theorem c6_redirect_streams (e : Env) (s0 s1 s2 : StdioImp) :
    ((redirect_standard_streams e s0 s1 s2).1 = Except.ok () →
      (redirect_standard_streams e s0 s1 s2).2 = redirectSeg e s0 s1 s2) ∧
    (∀ err, (redirect_standard_streams e s0 s1 s2).1 = Except.error err →
      (∃ n, err = DaemonizeError.RedirectStreams n) ∧
      ∃ rest, (redirect_standard_streams e s0 s1 s2).2 ++ rest =
        redirectSeg e s0 s1 s2) := by
  constructor
  · intro h
    exact redirect_ok_elim h
  · intro err h
    exact ⟨redirect_err_elim h, redirect_lead e s0 s1 s2⟩

/-- Witness for C6: the successful sample redirection produces exactly the
planned slot sequence. -/
theorem c6_redirect_streams_witness :
    (redirect_standard_streams sampleEnv StdioImp.Devnull
        (StdioImp.RedirectToFile 8) StdioImp.Devnull).2 =
      redirectSeg sampleEnv StdioImp.Devnull
        (StdioImp.RedirectToFile 8) StdioImp.Devnull :=
  (c6_redirect_streams sampleEnv StdioImp.Devnull
    (StdioImp.RedirectToFile 8) StdioImp.Devnull).1 rfl

/-- C8 counterexample: `LockPidfile 13` carries the OS error code 13, but its
Display output is just the description phrase — the decimal code "13" appears
nowhere in it. -/
theorem c8_display_counterexample :
    errnoOf (DaemonizeError.LockPidfile 13) = some 13 ∧
      displayDaemonizeError (DaemonizeError.LockPidfile 13) =
        "unable to lock pid file" ∧
      ¬ ("13".toList <:+: (displayDaemonizeError (DaemonizeError.LockPidfile 13)).toList) := by
  refine ⟨rfl, rfl, by decide⟩

/-- C8 amended: the Display of every error `start` produces is exactly the
per-kind description phrase; the numeric OS error code is never appended, so
the output is independent of the carried errno. -/
theorem c8_display_description (n m : Int) :
    displayDaemonizeError DaemonizeError.Fork = "unable to fork" ∧
    displayDaemonizeError (DaemonizeError.DetachSession n) =
      "unable to create new session" ∧
    displayDaemonizeError DaemonizeError.GroupNotFound =
      "unable to resolve group name to group id" ∧
    displayDaemonizeError DaemonizeError.GroupContainsNul =
      "group option contains NUL" ∧
    displayDaemonizeError (DaemonizeError.SetGroup n) = "unable to set group" ∧
    displayDaemonizeError DaemonizeError.UserNotFound =
      "unable to resolve user name to user id" ∧
    displayDaemonizeError DaemonizeError.UserContainsNul =
      "user option contains NUL" ∧
    displayDaemonizeError (DaemonizeError.SetUser n) = "unable to set user" ∧
    displayDaemonizeError DaemonizeError.ChangeDirectory =
      "unable to change directory" ∧
    displayDaemonizeError DaemonizeError.PathContainsNul =
      "pid_file option contains NUL" ∧
    displayDaemonizeError DaemonizeError.OpenPidfile = "unable to open pid file" ∧
    displayDaemonizeError (DaemonizeError.LockPidfile n) =
      "unable to lock pid file" ∧
    displayDaemonizeError (DaemonizeError.ChownPidfile n) =
      "unable to chown pid file" ∧
    displayDaemonizeError (DaemonizeError.RedirectStreams n) =
      "unable to redirect standard streams to /dev/null" ∧
    displayDaemonizeError DaemonizeError.WritePid =
      "unable to write self pid to pid file" ∧
    displayDaemonizeError (DaemonizeError.Chroot n) =
      "unable to chroot into directory" ∧
    displayDaemonizeError (DaemonizeError.LockPidfile n) =
      displayDaemonizeError (DaemonizeError.LockPidfile m) ∧
    (∀ err, displayDaemonizeError err = descriptionOf err) := by
  exact ⟨rfl, rfl, rfl, rfl, rfl, rfl, rfl, rfl, rfl, rfl, rfl, rfl, rfl, rfl,
    rfl, rfl, rfl, fun err => rfl⟩

/-- C10: a configured path containing an interior NUL byte makes the path
conversion, and with it `create_pid_file`, `chown_pid_file` and `change_root`,
fail with `PathContainsNul` while performing no syscall at all (the emitted
trace is empty). -/
theorem c10_nul_path (e : Env) (p : List Nat) (h : (0 : Nat) ∈ p) (u g : Nat) :
    pathbuf_into_cstring p = Except.error DaemonizeError.PathContainsNul ∧
    create_pid_file e p = (Except.error DaemonizeError.PathContainsNul, []) ∧
    chown_pid_file e p u g = (Except.error DaemonizeError.PathContainsNul, []) ∧
    change_root e p = (Except.error DaemonizeError.PathContainsNul, []) := by
  have hpc : pathbuf_into_cstring p = Except.error DaemonizeError.PathContainsNul := by
    unfold pathbuf_into_cstring
    rw [if_pos h]
  refine ⟨hpc, ?_, ?_, ?_⟩
  · unfold create_pid_file
    rw [hpc]
  · unfold chown_pid_file
    rw [hpc]
  · unfold change_root
    rw [hpc]

/-- Witness for C10 at the path consisting of a single NUL byte. -/
theorem c10_nul_path_witness :
    create_pid_file sampleEnv [0] = (Except.error DaemonizeError.PathContainsNul, []) ∧
      change_root sampleEnv [0] = (Except.error DaemonizeError.PathContainsNul, []) :=
  ⟨(c10_nul_path sampleEnv [0] (by decide) 1 2).2.1,
    (c10_nul_path sampleEnv [0] (by decide) 1 2).2.2.2⟩

end Daemonize2Proof
